import Mathlib
/-!
Verification of the `config_stash` configuration-aggregation library.

The development shallowly embeds the two source modules:
* `src/config_stash/config.py` — the `Config` store (a `dict` subclass whose
  `__setitem__` mirrors every write into `os.environ`), with its load
  operations (`load_many_keys_from_env`, `load_from_env`,
  `load_prefixed_env_vars`, YAML resolution, `load_from_vault`);
* `src/config_stash/loaders.py` — the stateless loaders and the stateful
  `YamlLoader`.

Python dictionaries are modelled as ordered association lists, Python
exceptions as an explicit error type threaded through each operation, and
`os.environ` as a string-to-string association list carried in the state.
-/
namespace ConfigStash
/-- Python exception classes that the code can raise, with their message. -/
inductive PyErr where
  | keyError (msg : String)
  | typeError (msg : String)
  | valueError (msg : String)
  | attributeError (msg : String)
  | fileNotFoundError (msg : String)
  | yamlError (msg : String)
deriving DecidableEq, Repr
/-- The message carried by an exception. -/
def PyErr.message : PyErr → String
  | .keyError m => m
  | .typeError m => m
  | .valueError m => m
  | .attributeError m => m
  | .fileNotFoundError m => m
  | .yamlError m => m
/-- The classification (Python class) of an exception, message forgotten. -/
inductive ErrKind where
  | keyErr | typeErr | valueErr | attrErr | fileNotFound | yamlErr
deriving DecidableEq, Repr
/-- Classify an exception. -/
def PyErr.kind : PyErr → ErrKind
  | .keyError _ => .keyErr
  | .typeError _ => .typeErr
  | .valueError _ => .valueErr
  | .attributeError _ => .attrErr
  | .fileNotFoundError _ => .fileNotFound
  | .yamlError _ => .yamlErr
/-- Values held by the store: the YAML scalars the code manipulates
(strings, ints, booleans) and nested mappings, modelled as ordered
association lists exactly like Python dicts. -/
inductive Value where
  | str (s : String)
  | int (n : Int)
  | bool (b : Bool)
  | vmap (entries : List (String × Value))
deriving Repr
/-- First-match lookup in an ordered association list (Python `d.get(k)`). -/
def lookupA {α : Type} : List (String × α) → String → Option α
  | [], _ => none
  | (k, v) :: rest, key => if k = key then some v else lookupA rest key
/-- Python `d[k] = v` on an ordered dict: update in place keeping the
original position, or append a fresh key at the end. -/
def setAssoc {α : Type} : List (String × α) → String → α → List (String × α)
  | [], key, v => [(key, v)]
  | (k, w) :: rest, key, v =>
      if k = key then (key, v) :: rest else (k, w) :: setAssoc rest key v
/-- Python `s.startswith(p)`. -/
def strStartsWith (s p : String) : Bool := p.data.isPrefixOf s.data
/-- Python `s.strip(chars)`: remove every leading and trailing character
belonging to the character set `chars` (NOT prefix/suffix removal). -/
def pyStrip (chars : List Char) (s : String) : String :=
  ⟨(((s.data.dropWhile (· ∈ chars)).reverse.dropWhile (· ∈ chars)).reverse)⟩
/-- The character set of Python `strip("ENV.")`. -/
def envChars : List Char := ['E', 'N', 'V', '.']
/-- The character set of Python `strip("VAULT.")`. -/
def vaultChars : List Char := ['V', 'A', 'U', 'L', 'T', '.']
/-- Helper for `splitDot`: split a character list on `c`, accumulating the
current (reversed) segment. -/
def splitCharAux (c : Char) : List Char → List Char → List (List Char)
  | [], cur => [cur.reverse]
  | a :: rest, cur =>
      if a = c then cur.reverse :: splitCharAux c rest []
      else splitCharAux c rest (a :: cur)
/-- Python `s.split(".")`. -/
def splitDot (s : String) : List String :=
  (splitCharAux '.' s.data []).map (fun l => ⟨l⟩)
/-- Boolean substring test: does `sub` occur inside `s`? -/
def containsAux (sub : List Char) : List Char → Bool
  | [] => sub.isEmpty
  | l@(_ :: rest) => sub.isPrefixOf l || containsAux sub rest
/-- String containment, used to state that error messages carry the path. -/
def strContains (s sub : String) : Bool := containsAux sub.data s.data
mutual
/-- Python `repr()` restricted to the values the code manipulates. -/
def pyRepr : Value → String
  | .str s => "'" ++ s ++ "'"
  | .int n => toString n
  | .bool b => if b then "True" else "False"
  | .vmap m => "\x7b" ++ pyReprEntries m ++ "\x7d"
/-- `repr()` of the entries of a dict, comma separated. -/
def pyReprEntries : List (String × Value) → String
  | [] => ""
  | [(k, v)] => "'" ++ k ++ "': " ++ pyRepr v
  | (k, v) :: rest => "'" ++ k ++ "': " ++ pyRepr v ++ ", " ++ pyReprEntries rest
end
/-- Python `str()`: identity on strings, `repr` on everything else. -/
def pyStr : Value → String
  | .str s => s
  | v => pyRepr v
/-- The state a `Config` object acts on: the dict contents of the store and
the process environment `os.environ` (mirror target and source of reads). -/
structure ConfigState where
  store : List (String × Value)
  env : List (String × String)
deriving Repr
/-- Result of running an operation: the state at return (or at raise time,
since Python keeps mutations made before an exception) plus the exception. -/
structure PResult where
  state : ConfigState
  err : Option PyErr
deriving Repr
/-- `Config.__setitem__`: write the pair into the dict and mirror the
stringified value into `os.environ`. -/
def setItemC (st : ConfigState) (k : String) (v : Value) : ConfigState :=
  ⟨setAssoc st.store k v, setAssoc st.env k (pyStr v)⟩
/-- The key `k` obeys the mirror contract in `st`: if the store holds a
value at `k`, the environment holds its stringification. -/
def mirroredAt (st : ConfigState) (k : String) : Prop :=
  ∀ v, lookupA st.store k = some v → lookupA st.env k = some (pyStr v)
/-- Every key of the store is mirrored into the environment. -/
def mirrored (st : ConfigState) : Prop := ∀ k, mirroredAt st k
/-- An optional `str` argument is truthy in Python iff it is given and
nonempty. -/
def truthy : Option String → Bool
  | none => false
  | some s => s ≠ ""
/-- A vault fetcher: `get_value_from_vault(path, key)`. -/
def Fetcher : Type := String → String → Value
/-- CPython's message for tuple-unpacking a list of the wrong length into
two variables. -/
def unpackMsg (n : Nat) : String :=
  if n < 2 then "not enough values to unpack (expected 2, got " ++ toString n ++ ")"
  else "too many values to unpack (expected 2)"
/-- Walking error of `_set_nested_dict` when an intermediate path segment
holds a scalar: `TypeError` on the final assignment, `AttributeError` on an
intermediate `setdefault`. -/
def walkErr (rest : List String) : PyErr :=
  match rest with
  | [_] => .typeError "'int' object does not support item assignment"
  | _ => .attributeError "'int' object has no attribute 'setdefault'"
/-- The `setdefault` walk of `_set_nested_dict` inside a plain nested dict
(plain writes, no environment mirror). Mutations made before a walking
error persist, as in Python. -/
def setNestedInDict : List (String × Value) → List String → Value →
    List (String × Value) × Option PyErr
  | d, [], _ => (d, none)
  | d, [last], v => (setAssoc d last v, none)
  | d, k :: rest, v =>
      match lookupA d k with
      | some (.vmap m) =>
          let r := setNestedInDict m rest v
          (setAssoc d k (.vmap r.1), r.2)
      | some _ => (d, some (walkErr rest))
      | none =>
          let r := setNestedInDict [] rest v
          (setAssoc d k (.vmap r.1), r.2)
namespace Config
/-- `Config.load_many_keys_from_env`: for each key in order, raise if it is
unset, else write it through `__setitem__`. -/
def load_many_keys_from_env : List String → ConfigState → PResult
  | [], st => ⟨st, none⟩
  | k :: ks, st =>
      match lookupA st.env k with
      | none => ⟨st, some (.keyError ("Environment variable " ++ k ++ " isn't set"))⟩
      | some v => load_many_keys_from_env ks (setItemC st k (.str v))
/-- `Config.load_from_env`: raise if the variable is unset; else write it
under the custom name when that is truthy, otherwise under the key. -/
def load_from_env (key : String) (custom_key_name : Option String) (st : ConfigState) :
    PResult :=
  match lookupA st.env key with
  | none => ⟨st, some (.keyError ("Environment variable " ++ key ++ " isn't set"))⟩
  | some v =>
      if truthy custom_key_name then
        ⟨setItemC st (custom_key_name.getD "") (.str v), none⟩
      else
        ⟨setItemC st key (.str v), none⟩
/-- Inner loop of `load_prefixed_env_vars`: try each prefix against one
environment key; write the key (reading its current value) when it matches
and is not already in the store. -/
def loadPrefixedKey (key : String) : List String → ConfigState → ConfigState
  | [], st => st
  | p :: ps, st =>
      if strStartsWith key p ∧ (lookupA st.store key).isNone then
        match lookupA st.env key with
        | some v => loadPrefixedKey key ps (setItemC st key (.str v))
        | none => loadPrefixedKey key ps st
      else loadPrefixedKey key ps st
/-- Outer loop of `load_prefixed_env_vars` over the environment's keys. -/
def loadPrefixedKeys (st : ConfigState) : List String → List String → ConfigState
  | [], _ => st
  | k :: ks, prefixes => loadPrefixedKeys (loadPrefixedKey k prefixes st) ks prefixes
/-- `Config.load_prefixed_env_vars`: `TypeError` when the prefix list is
falsy, else scan all current environment keys. -/
def load_prefixed_env_vars (allowed_prefixes : Option (List String)) (st : ConfigState) :
    PResult :=
  match allowed_prefixes with
  | none =>
      ⟨st, some (.typeError
        "You should provide the prefixes of the variables that should be loaded.")⟩
  | some [] =>
      ⟨st, some (.typeError
        "You should provide the prefixes of the variables that should be loaded.")⟩
  | some prefixes => ⟨loadPrefixedKeys st (st.env.map Prod.fst) prefixes, none⟩
/-- `Config.load_from_vault`: fetch through the configured fetcher
(`AttributeError` on `None`), then write under the custom name only when it
is truthy and absent, else under the vault secret key. -/
def load_from_vault (vault_fetcher : Option Fetcher)
    (vault_secret_path vault_secret_key : String)
    (custom_key_name : Option String) (st : ConfigState) : PResult :=
  match vault_fetcher with
  | none =>
      ⟨st, some (.attributeError
        "'NoneType' object has no attribute 'get_value_from_vault'")⟩
  | some f =>
      let v := f vault_secret_path vault_secret_key
      match custom_key_name with
      | some c =>
          if c ≠ "" ∧ (lookupA st.store c).isNone then ⟨setItemC st c v, none⟩
          else ⟨setItemC st vault_secret_key v, none⟩
      | none => ⟨setItemC st vault_secret_key v, none⟩
/-- `Config._load_env_variable`: Python `yaml_value.strip("ENV.")` (a
character-set strip) produces the variable name, then `load_from_env` with
the YAML key as custom name. -/
def loadEnvVariable (yaml_value yaml_key : String) (st : ConfigState) : PResult :=
  load_from_env (pyStrip envChars yaml_value) (some yaml_key) st
/-- `Config._load_vault_secret`: strip the `VAULT.` character set, split on
dots, unpack into exactly (path, key) — `ValueError` otherwise — then
`load_from_vault` with the YAML key as custom name. -/
def loadVaultSecret (vault_fetcher : Option Fetcher) (yaml_value yaml_key : String)
    (st : ConfigState) : PResult :=
  match splitDot (pyStrip vaultChars yaml_value) with
  | [p, q] => load_from_vault vault_fetcher p q (some yaml_key) st
  | parts => ⟨st, some (.valueError (unpackMsg parts.length))⟩
/-- `Config._set_nested_dict` on the already-split dotted key. A
single-segment path writes through `__setitem__` (mirroring); a longer path
walks with `dict.setdefault`, which bypasses `__setitem__` and therefore
never touches the environment. -/
def setNestedDict (st : ConfigState) (keys : List String) (v : Value) : PResult :=
  match keys with
  | [] => ⟨st, none⟩
  | [last] => ⟨setItemC st last v, none⟩
  | k :: rest =>
      match lookupA st.store k with
      | some (.vmap m) =>
          let r := setNestedInDict m rest v
          ⟨{ st with store := setAssoc st.store k (.vmap r.1) }, r.2⟩
      | some _ => ⟨st, some (walkErr rest)⟩
      | none =>
          let r := setNestedInDict [] rest v
          ⟨{ st with store := setAssoc st.store k (.vmap r.1) }, r.2⟩
/-- One non-mapping entry of `_load_yaml_data`: placeholder strings resolve
(and overwrite through the resolvers), anything else is written only when
the key is not already in the store. -/
def scalarStep (vault_fetcher : Option Fetcher) (k : String) (v : Value)
    (st : ConfigState) : PResult :=
  match v with
  | .str s =>
      if strStartsWith s "ENV." then loadEnvVariable s k st
      else if strStartsWith s "VAULT." then loadVaultSecret vault_fetcher s k st
      else if (lookupA st.store k).isNone then ⟨setItemC st k (.str s), none⟩
      else ⟨st, none⟩
  | v =>
      if (lookupA st.store k).isNone then ⟨setItemC st k v, none⟩ else ⟨st, none⟩
/-- `Config._load_yaml_data`: recursive resolution walk. A nested mapping
recurses first under the dotted key, then reattaches the original (raw)
mapping object via `_set_nested_dict`. -/
def loadYamlData (vault_fetcher : Option Fetcher) :
    List (String × Value) → String → ConfigState → PResult
  | [], _, st => ⟨st, none⟩
  | (k, .vmap m) :: rest, parent_key, st =>
      let nested_key := if parent_key ≠ "" then parent_key ++ "." ++ k else k
      match loadYamlData vault_fetcher m nested_key st with
      | ⟨st1, none⟩ =>
          match setNestedDict st1 (splitDot nested_key) (.vmap m) with
          | ⟨st2, none⟩ => loadYamlData vault_fetcher rest parent_key st2
          | r => r
      | r => r
  | (k, v) :: rest, parent_key, st =>
      match scalarStep vault_fetcher k v st with
      | ⟨st1, none⟩ => loadYamlData vault_fetcher rest parent_key st1
      | r => r
/-- Re-raise `type(e)(f"Error loading data from file: '{filepath}'")` for the
caught classes, pass anything else through unchanged. -/
def wrapCaught (filepath : String) (e : PyErr) : PyErr :=
  let msg := "Error loading data from file: '" ++ filepath ++ "'"
  match e with
  | .fileNotFoundError _ => .fileNotFoundError msg
  | .valueError _ => .valueError msg
  | .yamlError _ => .yamlError msg
  | e => e
/-- `Config.load_from_yaml_file`: the external open/parse collaborator's
outcome is given as `parse`; any caught error from parsing or from the
resolution walk is re-raised with the file path in the message. -/
def load_from_yaml_file (vault_fetcher : Option Fetcher) (filepath : String)
    (parse : Except PyErr (List (String × Value))) (st : ConfigState) : PResult :=
  match parse with
  | .error e => ⟨st, some (wrapCaught filepath e)⟩
  | .ok data =>
      match loadYamlData vault_fetcher data "" st with
      | ⟨st1, some e⟩ => ⟨st1, some (wrapCaught filepath e)⟩
      | r => r
end Config
namespace YamlLoader
/-- `YamlLoader._load_yaml_data`: like the `Config` walk, but accumulating
into the loader's plain `self.data` dict (no environment mirror) and
reading the environment only through `EnvLoader`. The recursive call for a
nested mapping passes only `(value, nested_key)`, so the vault fetcher is
NOT forwarded (it falls back to its default `None`); the vault branch at
the current level uses this level's fetcher through `VaultLoader.load`,
which raises `AttributeError` when the fetcher is falsy. -/
def load_yaml_data (env : List (String × String)) :
    List (String × Value) → String → Option Fetcher → List (String × Value) →
    List (String × Value) × Option PyErr
  | [], _, _, data => (data, none)
  | (k, .vmap m) :: rest, parent_key, vault_fetcher, data =>
      let nested_key := if parent_key ≠ "" then parent_key ++ "." ++ k else k
      match load_yaml_data env m nested_key none data with
      | (d1, none) =>
          match setNestedInDict d1 (splitDot nested_key) (.vmap m) with
          | (d2, none) => load_yaml_data env rest parent_key vault_fetcher d2
          | r => r
      | r => r
  | (k, .str s) :: rest, parent_key, vault_fetcher, data =>
      if strStartsWith s "ENV." then
        match lookupA env (pyStrip envChars s) with
        | none =>
            (data, some (.keyError
              ("Environment variable " ++ pyStrip envChars s ++ " isn't set")))
        | some v => load_yaml_data env rest parent_key vault_fetcher (setAssoc data k (.str v))
      else if strStartsWith s "VAULT." then
        match splitDot (pyStrip vaultChars s) with
        | [p, q] =>
            match vault_fetcher with
            | none => (data, some (.attributeError "Needs a vault fetcher object."))
            | some f => load_yaml_data env rest parent_key vault_fetcher (setAssoc data k (f p q))
        | parts => (data, some (.valueError (unpackMsg parts.length)))
      else if (lookupA data k).isNone then
        load_yaml_data env rest parent_key vault_fetcher (setAssoc data k (.str s))
      else load_yaml_data env rest parent_key vault_fetcher data
  | (k, v) :: rest, parent_key, vault_fetcher, data =>
      if (lookupA data k).isNone then
        load_yaml_data env rest parent_key vault_fetcher (setAssoc data k v)
      else load_yaml_data env rest parent_key vault_fetcher data
end YamlLoader

/-- First segment of a dotted key, i.e. the top-level store key that
`_set_nested_dict` walks into. -/
def headSeg (s : String) : String := (splitDot s).headD ""

/-- Every top-level key carrying a nested mapping is nonempty and dot-free
(so its reattachment path has a single segment and goes through
`__setitem__`). -/
def topMapKeysOk : List (String × Value) → Bool
  | [] => true
  | (k, .vmap _) :: rest =>
      (decide (k ≠ "") && decide ('.' ∉ k.data)) && topMapKeysOk rest
  | _ :: rest => topMapKeysOk rest

/-- A concrete vault fetcher used for closed counterexamples. -/
def sampleFetcher : Fetcher := fun p q => .str (p ++ "/" ++ q)

/-! ## Association-list and string lemmas -/

theorem lookupA_setAssoc_self {α : Type} (l : List (String × α)) (k : String) (v : α) :
    lookupA (setAssoc l k v) k = some v := by
  induction l with
  | nil => simp [setAssoc, lookupA]
  | cons hd tl ih =>
      obtain ⟨k', w⟩ := hd
      by_cases hk : k' = k
      · simp [setAssoc, hk, lookupA]
      · simp [setAssoc, hk, lookupA, ih]

theorem lookupA_setAssoc_ne {α : Type} (l : List (String × α)) {j k : String} (v : α)
    (h : j ≠ k) : lookupA (setAssoc l k v) j = lookupA l j := by
  induction l with
  | nil =>
      simp only [setAssoc, lookupA]
      rw [if_neg (fun hh => h hh.symm)]
  | cons hd tl ih =>
      obtain ⟨k', w⟩ := hd
      by_cases hk : k' = k
      · subst hk
        simp only [setAssoc, if_pos rfl, lookupA]
        rw [if_neg (fun hh => h hh.symm), if_neg (fun hh => h hh.symm)]
      · by_cases hj : k' = j <;> simp [setAssoc, hk, lookupA, hj, ih, h]

/-- Re-writing a key with the value it already has does not change any lookup. -/
theorem lookupA_setAssoc_same {α : Type} (l : List (String × α)) {k : String} {v : α}
    (h : lookupA l k = some v) (j : String) :
    lookupA (setAssoc l k v) j = lookupA l j := by
  by_cases hj : j = k
  · subst hj; rw [lookupA_setAssoc_self, h]
  · exact lookupA_setAssoc_ne l v hj

theorem splitCharAux_ne_nil (c : Char) (l cur : List Char) :
    splitCharAux c l cur ≠ [] := by
  induction l generalizing cur with
  | nil => simp [splitCharAux]
  | cons a rest ih =>
      by_cases h : a = c <;> simp [splitCharAux, h, ih]

theorem splitDot_ne_nil (s : String) : splitDot s ≠ [] := by
  simp [splitDot, splitCharAux_ne_nil]

theorem splitCharAux_append (c : Char) (l1 l2 cur : List Char) :
    splitCharAux c (l1 ++ c :: l2) cur =
      splitCharAux c l1 cur ++ splitCharAux c l2 [] := by
  induction l1 generalizing cur with
  | nil => simp [splitCharAux]
  | cons a rest ih =>
      by_cases h : a = c <;> simp [splitCharAux, h, ih]

/-- Splitting a string that was assembled around an explicit dot splits at
that dot, concatenating the two split lists. -/
theorem splitDot_append (a b : String) :
    splitDot (a ++ "." ++ b) = splitDot a ++ splitDot b := by
  have hdot : ("." : String).data = ['.'] := rfl
  have hdata : (a ++ "." ++ b).data = a.data ++ '.' :: b.data := by
    simp [String.data_append, hdot]
  simp [splitDot, hdata, splitCharAux_append]

/-- A string without dots splits into the single segment equal to itself. -/
theorem splitDot_eq_self {s : String} (h : '.' ∉ s.data) : splitDot s = [s] := by
  have : ∀ (l : List Char), '.' ∉ l →
      ∀ cur, splitCharAux '.' l cur = [cur.reverse ++ l] := by
    intro l
    induction l with
    | nil => intro _ cur; simp [splitCharAux]
    | cons a rest ih =>
        intro hmem cur
        have ha : a ≠ '.' := by
          intro hh; exact hmem (by simp [hh])
        have hrest : '.' ∉ rest := by
          intro hh; exact hmem (by simp [hh])
        simp [splitCharAux, ha, ih hrest]
  simp [splitDot, this s.data h []]

theorem isPrefixOf_append_self (l t : List Char) : l.isPrefixOf (l ++ t) = true := by
  induction l with
  | nil => simp [List.isPrefixOf]
  | cons a rest ih => simp [List.isPrefixOf, ih]

theorem containsAux_append (sub pre post : List Char) :
    containsAux sub (pre ++ sub ++ post) = true := by
  induction pre with
  | nil =>
      cases sub with
      | nil => cases post <;> simp [containsAux]
      | cons a rest => simp [containsAux, isPrefixOf_append_self]
  | cons a rest ih =>
      have hstep : containsAux sub (a :: (rest ++ sub ++ post)) =
          (sub.isPrefixOf (a :: (rest ++ sub ++ post)) || containsAux sub (rest ++ sub ++ post)) := by
        rfl
      simp only [List.cons_append, List.append_assoc] at hstep ⊢
      rw [List.append_assoc] at ih
      rw [hstep, ih, Bool.or_true]

/-- A string contains any middle factor it was assembled from. -/
theorem strContains_of_middle (pre mid post : String) :
    strContains (pre ++ mid ++ post) mid = true := by
  simpa [strContains, String.data_append, List.append_assoc]
    using containsAux_append mid.data pre.data post.data

/-! ## Mirror-invariant infrastructure -/

theorem mirroredAt_of_eq {st st' : ConfigState} {j : String}
    (hs : lookupA st'.store j = lookupA st.store j)
    (he : lookupA st'.env j = lookupA st.env j)
    (hm : mirroredAt st j) : mirroredAt st' j := by
  intro w hw
  rw [hs] at hw
  rw [he]
  exact hm w hw

theorem mirroredAt_setItemC_self (st : ConfigState) (k : String) (v : Value) :
    mirroredAt (setItemC st k v) k := by
  intro w hw
  simp only [setItemC] at hw ⊢
  rw [lookupA_setAssoc_self] at hw
  injection hw with hw
  subst hw
  exact lookupA_setAssoc_self _ _ _

theorem mirroredAt_setItemC {st : ConfigState} (k : String) (v : Value) {j : String}
    (h : mirroredAt st j) : mirroredAt (setItemC st k v) j := by
  by_cases hj : j = k
  · subst hj
    exact mirroredAt_setItemC_self st j v
  · intro w hw
    simp only [setItemC] at hw ⊢
    rw [lookupA_setAssoc_ne _ _ hj] at hw
    rw [lookupA_setAssoc_ne _ _ hj]
    exact h w hw

theorem load_from_env_mirroredAt {key : String} {c : Option String}
    {st st1 : ConfigState} (h : Config.load_from_env key c st = ⟨st1, none⟩)
    (j : String) (hm : mirroredAt st j) : mirroredAt st1 j := by
  unfold Config.load_from_env at h
  split at h
  · simp at h
  · split at h <;>
      · simp only [PResult.mk.injEq] at h
        rw [← h.1]
        exact mirroredAt_setItemC _ _ hm

theorem load_from_vault_mirroredAt {f : Option Fetcher} {p q : String}
    {c : Option String} {st st1 : ConfigState}
    (h : Config.load_from_vault f p q c st = ⟨st1, none⟩)
    (j : String) (hm : mirroredAt st j) : mirroredAt st1 j := by
  unfold Config.load_from_vault at h
  split at h
  · simp at h
  · split at h
    · split at h <;>
        · simp only [PResult.mk.injEq] at h
          rw [← h.1]
          exact mirroredAt_setItemC _ _ hm
    · simp only [PResult.mk.injEq] at h
      rw [← h.1]
      exact mirroredAt_setItemC _ _ hm

theorem loadVaultSecret_mirroredAt {f : Option Fetcher} {s k : String}
    {st st1 : ConfigState} (h : Config.loadVaultSecret f s k st = ⟨st1, none⟩)
    (j : String) (hm : mirroredAt st j) : mirroredAt st1 j := by
  unfold Config.loadVaultSecret at h
  split at h
  · exact load_from_vault_mirroredAt h j hm
  · simp at h

theorem scalarStep_mirroredAt {f : Option Fetcher} {k : String} {v : Value}
    {st st1 : ConfigState} (h : Config.scalarStep f k v st = ⟨st1, none⟩)
    (j : String) (hm : mirroredAt st j) : mirroredAt st1 j := by
  unfold Config.scalarStep at h
  split at h
  · split at h
    · exact load_from_env_mirroredAt h j hm
    · split at h
      · exact loadVaultSecret_mirroredAt h j hm
      · split at h <;>
          · simp only [PResult.mk.injEq] at h
            rw [← h.1]
            first
              | exact mirroredAt_setItemC _ _ hm
              | exact hm
  · split at h <;>
      · simp only [PResult.mk.injEq] at h
        rw [← h.1]
        first
          | exact mirroredAt_setItemC _ _ hm
          | exact hm

theorem setNestedDict_preserve (st : ConfigState) {h0 : String} {rest : List String}
    (hrest : rest ≠ []) (v : Value) (j : String) (hj : j ≠ h0) :
    lookupA (Config.setNestedDict st (h0 :: rest) v).state.store j = lookupA st.store j ∧
      (Config.setNestedDict st (h0 :: rest) v).state.env = st.env := by
  cases rest with
  | nil => exact absurd rfl hrest
  | cons a as =>
      simp only [Config.setNestedDict]
      cases hls : lookupA st.store h0 with
      | none => exact ⟨lookupA_setAssoc_ne _ _ hj, rfl⟩
      | some v =>
          cases v <;>
            first
              | exact ⟨lookupA_setAssoc_ne _ _ hj, rfl⟩
              | exact ⟨rfl, rfl⟩

theorem append_dot_ne_empty (a b : String) : a ++ "." ++ b ≠ "" := by
  intro h
  have hdot : ("." : String).data = ['.'] := rfl
  have hd : (a ++ "." ++ b).data = ("" : String).data := by rw [h]
  rw [String.data_append, String.data_append, hdot] at hd
  simp at hd

theorem headSeg_append_dot (a b : String) : headSeg (a ++ "." ++ b) = headSeg a := by
  unfold headSeg
  rw [splitDot_append]
  obtain ⟨h, t, hht⟩ := List.exists_cons_of_ne_nil (splitDot_ne_nil a)
  rw [hht]
  rfl

theorem splitDot_dotted (a b : String) :
    ∃ t, splitDot (a ++ "." ++ b) = headSeg a :: t ∧ t ≠ [] := by
  rw [splitDot_append]
  obtain ⟨h, t, hht⟩ := List.exists_cons_of_ne_nil (splitDot_ne_nil a)
  refine ⟨t ++ splitDot b, ?_, ?_⟩
  · rw [hht]
    simp [headSeg, hht]
  · intro hc
    rcases List.append_eq_nil.mp hc with ⟨_, h2⟩
    exact splitDot_ne_nil b h2

/-- The YAML walk, restricted below the top level (`parent_key ≠ ""`), can
only break the mirror contract at the first segment of the parent key: all
nested reattachment paths start with that segment, and every other write
goes through `__setitem__`. -/
theorem loadYamlData_inner_mirror (f : Option Fetcher) (data : List (String × Value))
    (pk : String) (st : ConfigState) :
    pk ≠ "" → (Config.loadYamlData f data pk st).err = none →
    ∀ j, j ≠ headSeg pk → mirroredAt st j →
      mirroredAt (Config.loadYamlData f data pk st).state j := by
  induction data, pk, st using Config.loadYamlData.induct f with
  | case1 pk st =>
      intro _ _ j _ hm
      simpa [Config.loadYamlData] using hm
  | case2 k m rest pk st nk st2 heq1 st3 heq2 ih1 ih2 =>
      intro hpk herr j hj hm
      have hite : (if pk ≠ "" then pk ++ "." ++ k else k) = pk ++ "." ++ k := if_pos hpk
      have hnk : nk = pk ++ "." ++ k := hite
      rw [hnk] at heq1 heq2 ih1
      simp only [Config.loadYamlData, hite] at herr ⊢
      simp only [heq1] at herr ⊢
      simp only [heq2] at herr ⊢
      have hnkne : pk ++ "." ++ k ≠ "" := append_dot_ne_empty pk k
      have hhs : headSeg (pk ++ "." ++ k) = headSeg pk := headSeg_append_dot pk k
      have hm2 : mirroredAt st2 j := by
        have hih := ih1 hnkne (by rw [heq1]) j (by rw [hhs]; exact hj) hm
        rwa [heq1] at hih
      have hm3 : mirroredAt st3 j := by
        obtain ⟨t, hsplit, htne⟩ := splitDot_dotted pk k
        have hpres := setNestedDict_preserve st2 htne (Value.vmap m) j hj
        rw [← hsplit, heq2] at hpres
        exact mirroredAt_of_eq hpres.1 (by rw [hpres.2]) hm2
      exact ih2 hpk herr j hj hm3
  | case3 k m rest pk st nk st2 heq1 hfail ih1 =>
      intro hpk herr j hj hm
      exfalso
      have hite : (if pk ≠ "" then pk ++ "." ++ k else k) = pk ++ "." ++ k := if_pos hpk
      have hnk : nk = pk ++ "." ++ k := hite
      rw [hnk] at heq1 hfail
      simp only [Config.loadYamlData, hite] at herr
      simp only [heq1] at herr
      rcases hr : Config.setNestedDict st2 (splitDot (pk ++ "." ++ k)) (Value.vmap m)
        with ⟨rst, rerr⟩
      cases rerr with
      | none => exact hfail rst hr
      | some e =>
          rw [hr] at herr
          simp at herr
  | case4 k m rest pk st nk hfail ih1 =>
      intro hpk herr j hj hm
      exfalso
      have hite : (if pk ≠ "" then pk ++ "." ++ k else k) = pk ++ "." ++ k := if_pos hpk
      have hnk : nk = pk ++ "." ++ k := hite
      rw [hnk] at hfail
      simp only [Config.loadYamlData, hite] at herr
      rcases hr : Config.loadYamlData f m (pk ++ "." ++ k) st with ⟨rst, rerr⟩
      cases rerr with
      | none => exact hfail rst hr
      | some e =>
          rw [hr] at herr
          simp at herr
  | case5 k v rest pk st hnv st2 heq ih =>
      intro hpk herr j hj hm
      have hunf : Config.loadYamlData f ((k, v) :: rest) pk st =
          Config.loadYamlData f rest pk st2 := by
        cases v with
        | vmap m => exact absurd rfl (fun h => hnv m h)
        | str s => simp only [Config.loadYamlData, heq]
        | int n => simp only [Config.loadYamlData, heq]
        | bool b => simp only [Config.loadYamlData, heq]
      rw [hunf] at herr ⊢
      exact ih hpk herr j hj (scalarStep_mirroredAt heq j hm)
  | case6 k v rest pk st hnv hfail =>
      intro hpk herr j hj hm
      exfalso
      rcases hr : Config.scalarStep f k v st with ⟨rst, rerr⟩
      cases rerr with
      | none => exact hfail rst hr
      | some e =>
          have hunf : Config.loadYamlData f ((k, v) :: rest) pk st = ⟨rst, some e⟩ := by
            cases v with
            | vmap m => exact absurd rfl (fun h => hnv m h)
            | str s => simp only [Config.loadYamlData, hr]
            | int n => simp only [Config.loadYamlData, hr]
            | bool b => simp only [Config.loadYamlData, hr]
          rw [hunf] at herr
          simp at herr

/-- Unfolding of the YAML walk on a non-mapping head entry. -/
theorem loadYamlData_cons_scalar (f : Option Fetcher) (k : String) (v : Value)
    (hnv : ∀ m, v ≠ Value.vmap m) (rest : List (String × Value)) (pk : String)
    (st : ConfigState) :
    Config.loadYamlData f ((k, v) :: rest) pk st =
      match Config.scalarStep f k v st with
      | ⟨st1, none⟩ => Config.loadYamlData f rest pk st1
      | r => r := by
  cases v with
  | vmap m => exact absurd rfl (hnv m)
  | str s => simp only [Config.loadYamlData]
  | int n => simp only [Config.loadYamlData]
  | bool b => simp only [Config.loadYamlData]

/-- At the top level the walk preserves the mirror invariant, provided all
mapping-valued top keys are nonempty and dot-free (so each reattachment is
a single-segment `__setitem__`). -/
theorem loadYamlData_top_mirror (f : Option Fetcher) (data : List (String × Value)) :
    ∀ st : ConfigState, topMapKeysOk data = true →
      (Config.loadYamlData f data "" st).err = none →
      mirrored st → mirrored (Config.loadYamlData f data "" st).state := by
  induction data with
  | nil =>
      intro st _ _ hm
      simpa [Config.loadYamlData] using hm
  | cons hd rest ih =>
      obtain ⟨k, v⟩ := hd
      intro st hok herr hm
      cases v with
      | vmap m =>
          have hks : k ≠ "" ∧ '.' ∉ k.data ∧ topMapKeysOk rest = true := by
            simp only [topMapKeysOk, Bool.and_eq_true, decide_eq_true_eq] at hok
            exact ⟨hok.1.1, hok.1.2, hok.2⟩
          have hite : (if ("" : String) ≠ "" then "" ++ "." ++ k else k) = k := by
            simp
          have hsplit : splitDot k = [k] := splitDot_eq_self hks.2.1
          simp only [Config.loadYamlData, hite, hsplit] at herr ⊢
          rcases hr1 : Config.loadYamlData f m k st with ⟨st1, rerr1⟩
          rw [hr1] at herr
          try rw [hr1]
          cases rerr1 with
          | some e =>
              exact absurd (show (some e : Option PyErr) = none from herr)
                (Option.some_ne_none e)
          | none =>
              replace herr :
                  (Config.loadYamlData f rest "" (setItemC st1 k (Value.vmap m))).err =
                    none := herr
              have hm1 : mirrored (setItemC st1 k (Value.vmap m)) := by
                intro j
                by_cases hj : j = k
                · subst hj
                  exact mirroredAt_setItemC_self st1 j (Value.vmap m)
                · have hmj : mirroredAt st1 j := by
                    have hin := loadYamlData_inner_mirror f m k st hks.1
                      (by rw [hr1]) j (by rw [headSeg, hsplit]; exact hj) (hm j)
                    rwa [hr1] at hin
                  exact mirroredAt_setItemC _ _ hmj
              have hres := ih (setItemC st1 k (Value.vmap m)) hks.2.2 herr hm1
              show mirrored
                (Config.loadYamlData f rest "" (setItemC st1 k (Value.vmap m))).state
              exact hres
      | str s =>
          have hok2 : topMapKeysOk rest = true := by
            simpa [topMapKeysOk] using hok
          rw [loadYamlData_cons_scalar f k (Value.str s) (by intro m h; cases h)]
            at herr ⊢
          rcases hr : Config.scalarStep f k (Value.str s) st with ⟨st1, rerr⟩
          rw [hr] at herr
          try rw [hr]
          cases rerr with
          | some e =>
              exact absurd (show (some e : Option PyErr) = none from herr)
                (Option.some_ne_none e)
          | none =>
              replace herr : (Config.loadYamlData f rest "" st1).err = none := herr
              have hres := ih st1 hok2 herr (fun j => scalarStep_mirroredAt hr j (hm j))
              show mirrored (Config.loadYamlData f rest "" st1).state
              exact hres
      | int n =>
          have hok2 : topMapKeysOk rest = true := by
            simpa [topMapKeysOk] using hok
          rw [loadYamlData_cons_scalar f k (Value.int n) (by intro m h; cases h)]
            at herr ⊢
          rcases hr : Config.scalarStep f k (Value.int n) st with ⟨st1, rerr⟩
          rw [hr] at herr
          try rw [hr]
          cases rerr with
          | some e =>
              exact absurd (show (some e : Option PyErr) = none from herr)
                (Option.some_ne_none e)
          | none =>
              replace herr : (Config.loadYamlData f rest "" st1).err = none := herr
              have hres := ih st1 hok2 herr (fun j => scalarStep_mirroredAt hr j (hm j))
              show mirrored (Config.loadYamlData f rest "" st1).state
              exact hres
      | bool b =>
          have hok2 : topMapKeysOk rest = true := by
            simpa [topMapKeysOk] using hok
          rw [loadYamlData_cons_scalar f k (Value.bool b) (by intro m h; cases h)]
            at herr ⊢
          rcases hr : Config.scalarStep f k (Value.bool b) st with ⟨st1, rerr⟩
          rw [hr] at herr
          try rw [hr]
          cases rerr with
          | some e =>
              exact absurd (show (some e : Option PyErr) = none from herr)
                (Option.some_ne_none e)
          | none =>
              replace herr : (Config.loadYamlData f rest "" st1).err = none := herr
              have hres := ih st1 hok2 herr (fun j => scalarStep_mirroredAt hr j (hm j))
              show mirrored (Config.loadYamlData f rest "" st1).state
              exact hres

/-- Every write of `load_many_keys_from_env` goes through `__setitem__`, so
the mirror invariant is preserved even when the loop raises midway. -/
theorem load_many_mirror (keys : List String) :
    ∀ st : ConfigState, mirrored st →
      mirrored (Config.load_many_keys_from_env keys st).state := by
  induction keys with
  | nil => intro st hm; exact hm
  | cons k ks ih =>
      intro st hm
      simp only [Config.load_many_keys_from_env]
      cases hv : lookupA st.env k with
      | none => exact hm
      | some v => exact ih _ (fun j => mirroredAt_setItemC _ _ (hm j))

theorem loadPrefixedKey_mirror (key : String) (ps : List String) :
    ∀ st : ConfigState, mirrored st →
      mirrored (Config.loadPrefixedKey key ps st) := by
  induction ps with
  | nil => intro st hm; exact hm
  | cons p ps ih =>
      intro st hm
      simp only [Config.loadPrefixedKey]
      split
      · cases hv : lookupA st.env key with
        | none => exact ih _ hm
        | some v => exact ih _ (fun j => mirroredAt_setItemC _ _ (hm j))
      · exact ih _ hm

theorem loadPrefixedKeys_mirror (ks prefixes : List String) :
    ∀ st : ConfigState, mirrored st →
      mirrored (Config.loadPrefixedKeys st ks prefixes) := by
  induction ks with
  | nil => intro st hm; exact hm
  | cons k ks ih =>
      intro st hm
      exact ih _ (loadPrefixedKey_mirror k prefixes st hm)

/-- `loadPrefixedKey` never touches a key already present in the store. -/
theorem loadPrefixedKey_preserves (key : String) (ps : List String) :
    ∀ (st : ConfigState) (j : String) (v : Value), lookupA st.store j = some v →
      lookupA (Config.loadPrefixedKey key ps st).store j = some v := by
  induction ps with
  | nil => intro st j v hj; exact hj
  | cons p ps ih =>
      intro st j v hj
      simp only [Config.loadPrefixedKey]
      split
      · rename_i hcond
        cases hv : lookupA st.env key with
        | none => exact ih st j v hj
        | some w =>
            have hjk : j ≠ key := by
              intro hh
              rw [hh] at hj
              rw [hj] at hcond
              simp at hcond
            refine ih _ j v ?_
            simpa [setItemC, lookupA_setAssoc_ne _ _ hjk] using hj
      · exact ih st j v hj

theorem loadPrefixedKeys_preserves (ks prefixes : List String) :
    ∀ (st : ConfigState) (j : String) (v : Value), lookupA st.store j = some v →
      lookupA (Config.loadPrefixedKeys st ks prefixes).store j = some v := by
  induction ks with
  | nil => intro st j v hj; exact hj
  | cons k ks ih =>
      intro st j v hj
      exact ih _ j v (loadPrefixedKey_preserves k prefixes st j v hj)

/-- Successful `load_many_keys_from_env`: environment lookups unchanged,
every requested key overwritten with its environment value, everything
else untouched. -/
theorem load_many_success (keys : List String) :
    ∀ st st1 : ConfigState, Config.load_many_keys_from_env keys st = ⟨st1, none⟩ →
      (∀ j, lookupA st1.env j = lookupA st.env j) ∧
      (∀ kk, kk ∈ keys →
        lookupA st1.store kk = (lookupA st.env kk).map (fun v => Value.str v)) ∧
      (∀ j, j ∉ keys → lookupA st1.store j = lookupA st.store j) := by
  induction keys with
  | nil =>
      intro st st1 h
      simp only [Config.load_many_keys_from_env, PResult.mk.injEq] at h
      rw [← h.1]
      exact ⟨fun _ => rfl, fun kk hkk => absurd hkk (List.not_mem_nil kk),
        fun _ _ => rfl⟩
  | cons k ks ih =>
      intro st st1 h
      simp only [Config.load_many_keys_from_env] at h
      cases hv : lookupA st.env k with
      | none =>
          rw [hv] at h
          simp at h
      | some v =>
          rw [hv] at h
          obtain ⟨henv, hin, hout⟩ := ih _ st1 h
          have henvsame : ∀ j, lookupA (setItemC st k (Value.str v)).env j =
              lookupA st.env j := by
            intro j
            simp only [setItemC, pyStr]
            exact lookupA_setAssoc_same st.env hv j
          refine ⟨fun j => (henv j).trans (henvsame j), ?_, ?_⟩
          · intro kk hkk
            rcases List.mem_cons.mp hkk with hkk | hkk
            · subst hkk
              by_cases hmem : kk ∈ ks
              · rw [hin kk hmem, henvsame kk]
              · rw [hout kk hmem, hv]
                simp [setItemC, lookupA_setAssoc_self]
            · rw [hin kk hkk, henvsame kk]
          · intro j hj
            have hjk : j ≠ k := fun hh => hj (hh ▸ List.mem_cons_self k ks)
            have hjs : j ∉ ks := fun hh => hj (List.mem_cons_of_mem k hh)
            rw [hout j hjs]
            simp [setItemC, lookupA_setAssoc_ne _ _ hjk]

/-- `load_many_keys_from_env` hitting an unset key `k` after the prefix
`pre` of set keys: it raises for `k`, has already written every key of
`pre`, and has touched nothing else. -/
theorem load_many_failure (pre : List String) (k : String) (post : List String) :
    ∀ st : ConfigState, (∀ j, j ∈ pre → (lookupA st.env j).isSome) →
      lookupA st.env k = none →
      (Config.load_many_keys_from_env (pre ++ k :: post) st).err =
        some (.keyError ("Environment variable " ++ k ++ " isn't set")) ∧
      (∀ j, j ∈ pre →
        lookupA (Config.load_many_keys_from_env (pre ++ k :: post) st).state.store j =
          (lookupA st.env j).map (fun v => Value.str v)) ∧
      (∀ j, j ∉ pre →
        lookupA (Config.load_many_keys_from_env (pre ++ k :: post) st).state.store j =
          lookupA st.store j) ∧
      (∀ j, lookupA (Config.load_many_keys_from_env (pre ++ k :: post) st).state.env j =
        lookupA st.env j) := by
  induction pre with
  | nil =>
      intro st _ hk
      have hres : Config.load_many_keys_from_env ([] ++ k :: post) st =
          ⟨st, some (.keyError ("Environment variable " ++ k ++ " isn't set"))⟩ := by
        simp only [List.nil_append, Config.load_many_keys_from_env, hk]
      rw [hres]
      exact ⟨rfl, fun j hj => absurd hj (List.not_mem_nil j),
        fun _ _ => rfl, fun _ => rfl⟩
  | cons p ps ih =>
      intro st hset hk
      obtain ⟨v, hv⟩ := Option.isSome_iff_exists.mp (hset p (List.mem_cons_self p ps))
      have hstep : Config.load_many_keys_from_env ((p :: ps) ++ k :: post) st =
          Config.load_many_keys_from_env (ps ++ k :: post)
            (setItemC st p (Value.str v)) := by
        simp only [List.cons_append, Config.load_many_keys_from_env, hv, List.append_eq]
      have henvsame : ∀ j, lookupA (setItemC st p (Value.str v)).env j =
          lookupA st.env j := by
        intro j
        simp only [setItemC, pyStr]
        exact lookupA_setAssoc_same st.env hv j
      have hset2 : ∀ j, j ∈ ps → (lookupA (setItemC st p (Value.str v)).env j).isSome := by
        intro j hj
        rw [henvsame j]
        exact hset j (List.mem_cons_of_mem p hj)
      have hk2 : lookupA (setItemC st p (Value.str v)).env k = none := by
        rw [henvsame k]
        exact hk
      obtain ⟨herr, hin, hout, henv⟩ := ih (setItemC st p (Value.str v)) hset2 hk2
      rw [hstep]
      refine ⟨herr, ?_, ?_, fun j => (henv j).trans (henvsame j)⟩
      · intro j hj
        rcases List.mem_cons.mp hj with hj | hj
        · subst hj
          by_cases hmem : j ∈ ps
          · rw [hin j hmem, henvsame j]
          · rw [hout j hmem, hv]
            simp [setItemC, lookupA_setAssoc_self]
        · rw [hin j hj, henvsame j]
      · intro j hj
        have hjp : j ≠ p := fun hh => hj (hh ▸ List.mem_cons_self p ps)
        have hjs : j ∉ ps := fun hh => hj (List.mem_cons_of_mem p hh)
        rw [hout j hjs]
        simp [setItemC, lookupA_setAssoc_ne _ _ hjp]

/-! ## Claim theorems -/

/-- **C1, counterexample.** The claim says a failing `load_many_keys_from_env`
leaves the store untouched. With `A` set and `B` unset, loading `["A", "B"]`
from an empty store raises the missing-variable `KeyError` for `B`, yet the
store now contains `A` — it is not equal to the empty store it started from.
(The repository's own test asserts exactly this partial population.) -/
theorem load_many_keys_partial_write_cex :
    (Config.load_many_keys_from_env ["A", "B"] ⟨[], [("A", "1")]⟩).err =
        some (.keyError "Environment variable B isn't set") ∧
      (Config.load_many_keys_from_env ["A", "B"] ⟨[], [("A", "1")]⟩).state.store =
        [("A", Value.str "1")] ∧
      ([("A", Value.str "1")] : List (String × Value)) ≠ [] := by
  refine ⟨rfl, rfl, by simp⟩

/-- **C1, amended.** `load_many_keys_from_env` fails on the FIRST unset key,
raising the missing-variable `KeyError` for it; at that point every key
before it in list order has already been written (with its environment
value, mirrored), while no other store key — in particular neither the
unset key nor anything after it — has been touched. Environment lookups
are unchanged. -/
theorem load_many_keys_first_missing (pre : List String) (k : String)
    (post : List String) (st : ConfigState)
    (hpre : ∀ j, j ∈ pre → (lookupA st.env j).isSome)
    (hk : lookupA st.env k = none) :
    (Config.load_many_keys_from_env (pre ++ k :: post) st).err =
      some (.keyError ("Environment variable " ++ k ++ " isn't set")) ∧
    (∀ j, j ∈ pre →
      lookupA (Config.load_many_keys_from_env (pre ++ k :: post) st).state.store j =
        (lookupA st.env j).map (fun v => Value.str v)) ∧
    (∀ j, j ∉ pre →
      lookupA (Config.load_many_keys_from_env (pre ++ k :: post) st).state.store j =
        lookupA st.store j) ∧
    (∀ j, lookupA (Config.load_many_keys_from_env (pre ++ k :: post) st).state.env j =
      lookupA st.env j) :=
  load_many_failure pre k post st hpre hk

theorem load_many_keys_first_missing_witness :
    (∀ j, j ∈ ["A"] → (lookupA ([("A", "1")] : List (String × String)) j).isSome) ∧
    lookupA ([("A", "1")] : List (String × String)) "B" = none ∧
    ((Config.load_many_keys_from_env (["A"] ++ "B" :: []) ⟨[], [("A", "1")]⟩).err =
      some (.keyError ("Environment variable " ++ "B" ++ " isn't set")) ∧
    (∀ j, j ∈ ["A"] →
      lookupA (Config.load_many_keys_from_env (["A"] ++ "B" :: [])
          ⟨[], [("A", "1")]⟩).state.store j =
        (lookupA ([("A", "1")] : List (String × String)) j).map
          (fun v => Value.str v)) ∧
    (∀ j, j ∉ ["A"] →
      lookupA (Config.load_many_keys_from_env (["A"] ++ "B" :: [])
          ⟨[], [("A", "1")]⟩).state.store j =
        lookupA (⟨[], [("A", "1")]⟩ : ConfigState).store j) ∧
    (∀ j, lookupA (Config.load_many_keys_from_env (["A"] ++ "B" :: [])
        ⟨[], [("A", "1")]⟩).state.env j =
      lookupA ([("A", "1")] : List (String × String)) j)) := by
  have h1 : ∀ j, j ∈ ["A"] → (lookupA ([("A", "1")] : List (String × String)) j).isSome := by
    intro j hj
    rw [List.mem_singleton] at hj
    subst hj
    decide
  have h2 : lookupA ([("A", "1")] : List (String × String)) "B" = none := by decide
  exact ⟨h1, h2, load_many_keys_first_missing ["A"] "B" [] ⟨[], [("A", "1")]⟩ h1 h2⟩

/-- **C2, counterexample.** Resolving `{a: {b: "ENV.X"}}` with `X=42`
succeeds, but the subtree attached under `a` is the RAW parsed mapping
`{b: "ENV.X"}` (the placeholder text survives inside it); the resolved
`"42"` is written at the TOP level under the leaf key `b` instead. The
claim's resolved subtree `{b: "42"}` differs from what is attached. -/
theorem yaml_nested_reattach_raw_cex :
    (Config.loadYamlData none [("a", .vmap [("b", .str "ENV.X")])] ""
        ⟨[], [("X", "42")]⟩).err = none ∧
    lookupA (Config.loadYamlData none [("a", .vmap [("b", .str "ENV.X")])] ""
        ⟨[], [("X", "42")]⟩).state.store "a" =
      some (.vmap [("b", .str "ENV.X")]) ∧
    lookupA (Config.loadYamlData none [("a", .vmap [("b", .str "ENV.X")])] ""
        ⟨[], [("X", "42")]⟩).state.store "b" = some (.str "42") ∧
    Value.vmap [("b", Value.str "ENV.X")] ≠ Value.vmap [("b", Value.str "42")] := by
  refine ⟨?_, ?_, ?_, by simp⟩ <;>
    simp [Config.loadYamlData, Config.scalarStep, Config.loadEnvVariable,
      Config.load_from_env, Config.setNestedDict, setItemC, setAssoc, lookupA,
      strStartsWith, pyStrip, envChars, splitDot, splitCharAux, truthy, pyStr]

/-- **C2, amended.** After a successful walk over a document whose (dot-free)
top-level key holds a nested mapping, the store binds that key to the raw
parsed mapping object, placeholders untouched; resolved placeholder values
are written separately at top level under their own leaf keys. -/
theorem yaml_nested_reattach_raw (f : Option Fetcher) (k : String)
    (m : List (String × Value)) (st : ConfigState) (hdot : '.' ∉ k.data)
    (herr : (Config.loadYamlData f [(k, .vmap m)] "" st).err = none) :
    lookupA (Config.loadYamlData f [(k, .vmap m)] "" st).state.store k =
      some (.vmap m) := by
  have hite : (if ("" : String) ≠ "" then "" ++ "." ++ k else k) = k := by simp
  have hsplit : splitDot k = [k] := splitDot_eq_self hdot
  simp only [Config.loadYamlData, hite, hsplit] at herr ⊢
  rcases hr1 : Config.loadYamlData f m k st with ⟨st1, rerr1⟩
  rw [hr1] at herr
  try rw [hr1]
  cases rerr1 with
  | some e =>
      exact absurd (show (some e : Option PyErr) = none from herr)
        (Option.some_ne_none e)
  | none =>
      show lookupA (setItemC st1 k (Value.vmap m)).store k = some (Value.vmap m)
      simp [setItemC, lookupA_setAssoc_self]

theorem yaml_nested_reattach_raw_witness :
    '.' ∉ ("a" : String).data ∧
    (Config.loadYamlData none [("a", .vmap [("b", .int 5)])] "" ⟨[], []⟩).err = none ∧
    lookupA (Config.loadYamlData none [("a", .vmap [("b", .int 5)])] ""
        ⟨[], []⟩).state.store "a" = some (.vmap [("b", .int 5)]) := by
  have h1 : '.' ∉ ("a" : String).data := by decide
  have h2 : (Config.loadYamlData none [("a", Value.vmap [("b", Value.int 5)])] ""
      ⟨[], []⟩).err = none := by
    simp [Config.loadYamlData, Config.scalarStep, Config.setNestedDict, setItemC,
      setAssoc, lookupA, splitDot, splitCharAux, pyStr, pyRepr]
  exact ⟨h1, h2, yaml_nested_reattach_raw none "a" [("b", .int 5)] ⟨[], []⟩ h1 h2⟩

/-- **C3, counterexample.** A successful `load_from_yaml_file` on the document
`{"a.b": {c: 1}}` adds the key `a` to the store (created by the
`dict.setdefault` walk of `_set_nested_dict`, which bypasses `__setitem__`),
yet `os.environ` has no entry for `a`: the mirror-on-write invariant fails
for this successful write. -/
theorem mirror_gap_dotted_key_cex :
    (Config.load_from_yaml_file none "cfg.yaml"
        (.ok [("a.b", .vmap [("c", .int 1)])]) ⟨[], []⟩).err = none ∧
    (lookupA (Config.load_from_yaml_file none "cfg.yaml"
        (.ok [("a.b", .vmap [("c", .int 1)])]) ⟨[], []⟩).state.store "a").isSome ∧
    lookupA (Config.load_from_yaml_file none "cfg.yaml"
        (.ok [("a.b", .vmap [("c", .int 1)])]) ⟨[], []⟩).state.env "a" = none := by
  refine ⟨?_, ?_, ?_⟩ <;>
    simp [Config.load_from_yaml_file, Config.loadYamlData, Config.scalarStep,
      Config.setNestedDict, setNestedInDict, setItemC, setAssoc, lookupA,
      splitDot, splitCharAux, pyStr, pyRepr, Config.wrapCaught]

/-- **C3, amended.** Mirror-on-write: starting from a mirrored state, every
load path of the store leaves every store key mirrored into the process
environment with its stringified value — `load_many_keys_from_env` (even
when it raises midway), `load_from_env`, `load_prefixed_env_vars`,
`load_from_vault`, and direct assignment unconditionally; `load_from_yaml_file`
provided every mapping-valued top-level YAML key is nonempty and dot-free
(a dotted one is reattached through `dict.setdefault`, bypassing the mirror —
see the counterexample). Direct assignment also puts exactly the
stringified written value in the environment. -/
theorem mirror_on_write (st : ConfigState) (hm : mirrored st) :
    (∀ keys, mirrored (Config.load_many_keys_from_env keys st).state) ∧
    (∀ key c st1, Config.load_from_env key c st = ⟨st1, none⟩ → mirrored st1) ∧
    (∀ ps st1, Config.load_prefixed_env_vars ps st = ⟨st1, none⟩ → mirrored st1) ∧
    (∀ f fp parse st1, Config.load_from_yaml_file f fp parse st = ⟨st1, none⟩ →
      (∀ data, parse = .ok data → topMapKeysOk data = true) → mirrored st1) ∧
    (∀ f p q c st1, Config.load_from_vault f p q c st = ⟨st1, none⟩ → mirrored st1) ∧
    (∀ k v, mirrored (setItemC st k v) ∧
      lookupA (setItemC st k v).env k = some (pyStr v)) := by
  refine ⟨?_, ?_, ?_, ?_, ?_, ?_⟩
  · intro keys
    exact load_many_mirror keys st hm
  · intro key c st1 h j
    exact load_from_env_mirroredAt h j (hm j)
  · intro ps st1 h
    unfold Config.load_prefixed_env_vars at h
    split at h
    · simp at h
    · simp at h
    · simp only [PResult.mk.injEq] at h
      rw [← h.1]
      exact loadPrefixedKeys_mirror _ _ st hm
  · intro f fp parse st1 h hok
    unfold Config.load_from_yaml_file at h
    split at h
    · simp at h
    · rename_i data
      rcases hr : Config.loadYamlData f data "" st with ⟨rst, rerr⟩
      rw [hr] at h
      cases rerr with
      | some e => simp at h
      | none =>
          simp only [PResult.mk.injEq] at h
          rw [← h.1]
          have := loadYamlData_top_mirror f data st (hok data rfl) (by rw [hr]) hm
          rwa [hr] at this
  · intro f p q c st1 h j
    exact load_from_vault_mirroredAt h j (hm j)
  · intro k v
    refine ⟨fun j => mirroredAt_setItemC _ _ (hm j), ?_⟩
    simp [setItemC, lookupA_setAssoc_self]

theorem mirror_on_write_witness :
    mirrored ⟨[], [("X", "7")]⟩ ∧
    ((∀ keys, mirrored
        (Config.load_many_keys_from_env keys ⟨[], [("X", "7")]⟩).state) ∧
      (∀ key c st1, Config.load_from_env key c ⟨[], [("X", "7")]⟩ = ⟨st1, none⟩ →
        mirrored st1) ∧
      (∀ ps st1, Config.load_prefixed_env_vars ps ⟨[], [("X", "7")]⟩ = ⟨st1, none⟩ →
        mirrored st1) ∧
      (∀ f fp parse st1,
        Config.load_from_yaml_file f fp parse ⟨[], [("X", "7")]⟩ = ⟨st1, none⟩ →
        (∀ data, parse = .ok data → topMapKeysOk data = true) → mirrored st1) ∧
      (∀ f p q c st1, Config.load_from_vault f p q c ⟨[], [("X", "7")]⟩ = ⟨st1, none⟩ →
        mirrored st1) ∧
      (∀ k v, mirrored (setItemC ⟨[], [("X", "7")]⟩ k v) ∧
        lookupA (setItemC ⟨[], [("X", "7")]⟩ k v).env k = some (pyStr v))) := by
  have hm : mirrored (⟨[], [("X", "7")]⟩ : ConfigState) := by
    intro k v h
    simp [lookupA] at h
  exact ⟨hm, mirror_on_write ⟨[], [("X", "7")]⟩ hm⟩

theorem loadYamlData_nil (f : Option Fetcher) (pk : String) (st : ConfigState) :
    Config.loadYamlData f [] pk st = ⟨st, none⟩ := by
  simp [Config.loadYamlData]

/-- A one-entry document with a non-mapping value behaves exactly as the
per-entry resolution step. -/
theorem loadYamlData_single_scalar (f : Option Fetcher) (k : String) (v : Value)
    (st : ConfigState) (hnv : ∀ m, v ≠ Value.vmap m) :
    Config.loadYamlData f [(k, v)] "" st = Config.scalarStep f k v st := by
  rw [loadYamlData_cons_scalar f k v hnv]
  rcases hr : Config.scalarStep f k v st with ⟨st1, rerr⟩
  cases rerr with
  | none =>
      show Config.loadYamlData f [] "" st1 = ⟨st1, none⟩
      exact loadYamlData_nil f "" st1
  | some e => rfl

/-- **C4, counterexample.** The claim says a `VAULT.` placeholder always
overwrites its key. With `k ↦ "old"` already in the store, resolving
`{k: "VAULT.p.q"}` through `Config` leaves `k` at `"old"` and writes the
fetched secret under the vault secret key `q` instead. -/
theorem yaml_vault_no_overwrite_cex :
    (Config.loadYamlData (some sampleFetcher) [("k", .str "VAULT.p.q")] ""
        ⟨[("k", .str "old")], []⟩).err = none ∧
    lookupA (Config.loadYamlData (some sampleFetcher) [("k", .str "VAULT.p.q")] ""
        ⟨[("k", .str "old")], []⟩).state.store "k" = some (.str "old") ∧
    lookupA (Config.loadYamlData (some sampleFetcher) [("k", .str "VAULT.p.q")] ""
        ⟨[("k", .str "old")], []⟩).state.store "q" = some (.str "p/q") ∧
    Value.str "old" ≠ Value.str "p/q" := by
  refine ⟨?_, ?_, ?_, by simp⟩ <;>
    simp [Config.loadYamlData, Config.scalarStep, Config.loadVaultSecret,
      Config.load_from_vault, setItemC, setAssoc, lookupA, strStartsWith,
      pyStrip, vaultChars, splitDot, splitCharAux, truthy, pyStr, sampleFetcher]

/-- **C4, amended.** Per-entry merge policy of the YAML walk: a plain
(non-placeholder) string is written only when its key is absent
(first-write-wins); an `ENV.` placeholder overwrites its key
unconditionally; a `VAULT.` placeholder in `Config`'s walk does NOT
overwrite an already-present key — the secret is written under the vault
secret key instead — while in `YamlLoader`'s walk it does overwrite
unconditionally. -/
theorem yaml_merge_policies :
    (∀ (f : Option Fetcher) (k s : String) (st : ConfigState),
      strStartsWith s "ENV." = false → strStartsWith s "VAULT." = false →
      ((lookupA st.store k).isSome →
        Config.loadYamlData f [(k, Value.str s)] "" st = ⟨st, none⟩) ∧
      (lookupA st.store k = none →
        (Config.loadYamlData f [(k, Value.str s)] "" st).err = none ∧
        lookupA (Config.loadYamlData f [(k, Value.str s)] "" st).state.store k =
          some (Value.str s))) ∧
    (∀ (f : Option Fetcher) (k s v : String) (st : ConfigState),
      strStartsWith s "ENV." = true → k ≠ "" →
      lookupA st.env (pyStrip envChars s) = some v →
      (Config.loadYamlData f [(k, Value.str s)] "" st).err = none ∧
      lookupA (Config.loadYamlData f [(k, Value.str s)] "" st).state.store k =
        some (Value.str v)) ∧
    (∀ (fe : Fetcher) (k s p q : String) (st : ConfigState),
      strStartsWith s "ENV." = false → strStartsWith s "VAULT." = true →
      splitDot (pyStrip vaultChars s) = [p, q] → q ≠ k →
      (lookupA st.store k).isSome →
      (Config.loadYamlData (some fe) [(k, Value.str s)] "" st).err = none ∧
      lookupA (Config.loadYamlData (some fe) [(k, Value.str s)] "" st).state.store k =
        lookupA st.store k ∧
      lookupA (Config.loadYamlData (some fe) [(k, Value.str s)] "" st).state.store q =
        some (fe p q)) ∧
    (∀ (env : List (String × String)) (fe : Fetcher) (k s p q : String)
      (data : List (String × Value)),
      strStartsWith s "ENV." = false → strStartsWith s "VAULT." = true →
      splitDot (pyStrip vaultChars s) = [p, q] →
      (YamlLoader.load_yaml_data env [(k, Value.str s)] "" (some fe) data).2 = none ∧
      lookupA (YamlLoader.load_yaml_data env [(k, Value.str s)] "" (some fe) data).1 k =
        some (fe p q)) := by
  refine ⟨?_, ?_, ?_, ?_⟩
  · intro f k s st hE hV
    rw [loadYamlData_single_scalar f k (Value.str s) st (fun m h => Value.noConfusion h)]
    constructor
    · intro hpres
      obtain ⟨w, hw⟩ := Option.isSome_iff_exists.mp hpres
      simp [Config.scalarStep, hE, hV, hw]
    · intro habs
      have hs : Config.scalarStep f k (Value.str s) st =
          ⟨setItemC st k (Value.str s), none⟩ := by
        simp [Config.scalarStep, hE, hV, habs]
      rw [hs]
      exact ⟨rfl, by simp [setItemC, lookupA_setAssoc_self]⟩
  · intro f k s v st hE hk henv
    rw [loadYamlData_single_scalar f k (Value.str s) st (fun m h => Value.noConfusion h)]
    have hs : Config.scalarStep f k (Value.str s) st =
        ⟨setItemC st k (Value.str v), none⟩ := by
      simp [Config.scalarStep, hE, Config.loadEnvVariable, Config.load_from_env,
        henv, truthy, hk]
    rw [hs]
    exact ⟨rfl, by simp [setItemC, lookupA_setAssoc_self]⟩
  · intro fe k s p q st hE hV hsplit hqk hpres
    rw [loadYamlData_single_scalar (some fe) k (Value.str s) st
      (fun m h => Value.noConfusion h)]
    obtain ⟨w, hw⟩ := Option.isSome_iff_exists.mp hpres
    have hs : Config.scalarStep (some fe) k (Value.str s) st =
        ⟨setItemC st q (fe p q), none⟩ := by
      simp [Config.scalarStep, hE, hV, Config.loadVaultSecret, hsplit,
        Config.load_from_vault, hw]
    rw [hs]
    refine ⟨rfl, ?_, by simp [setItemC, lookupA_setAssoc_self]⟩
    simp only [setItemC]
    exact lookupA_setAssoc_ne _ _ (fun hh => hqk hh.symm)
  · intro env fe k s p q data hE hV hsplit
    have hstep : YamlLoader.load_yaml_data env [(k, Value.str s)] "" (some fe) data =
        (setAssoc data k (fe p q), none) := by
      simp [YamlLoader.load_yaml_data, hE, hV, hsplit]
    rw [hstep]
    exact ⟨rfl, lookupA_setAssoc_self _ _ _⟩

theorem yaml_merge_policies_witness :
    (strStartsWith "plain" "ENV." = false ∧ strStartsWith "plain" "VAULT." = false ∧
      (lookupA ([("k", Value.str "old")] : List (String × Value)) "k").isSome ∧
      Config.loadYamlData none [("k", Value.str "plain")] ""
        ⟨[("k", Value.str "old")], []⟩ = ⟨⟨[("k", Value.str "old")], []⟩, none⟩) ∧
    (strStartsWith "ENV.X" "ENV." = true ∧
      lookupA ([("X", "7")] : List (String × String)) (pyStrip envChars "ENV.X") =
        some "7" ∧
      lookupA (Config.loadYamlData none [("k", Value.str "ENV.X")] ""
          ⟨[("k", Value.str "old")], [("X", "7")]⟩).state.store "k" =
        some (Value.str "7")) ∧
    (splitDot (pyStrip vaultChars "VAULT.p.q") = ["p", "q"] ∧
      lookupA (Config.loadYamlData (some sampleFetcher)
          [("k", Value.str "VAULT.p.q")] "" ⟨[("k", Value.str "old")], []⟩).state.store
          "q" = some (sampleFetcher "p" "q")) ∧
    lookupA (YamlLoader.load_yaml_data [] [("k", Value.str "VAULT.p.q")] ""
        (some sampleFetcher) [("k", Value.str "old")]).1 "k" =
      some (sampleFetcher "p" "q") := by
  have hE1 : strStartsWith "plain" "ENV." = false := by decide
  have hV1 : strStartsWith "plain" "VAULT." = false := by decide
  have hE2 : strStartsWith "ENV.X" "ENV." = true := by decide
  have hE3 : strStartsWith "VAULT.p.q" "ENV." = false := by decide
  have hV3 : strStartsWith "VAULT.p.q" "VAULT." = true := by decide
  have hsplit : splitDot (pyStrip vaultChars "VAULT.p.q") = ["p", "q"] := by decide
  have henv : lookupA ([("X", "7")] : List (String × String))
      (pyStrip envChars "ENV.X") = some "7" := by decide
  have hpres : (lookupA ([("k", Value.str "old")] : List (String × Value)) "k").isSome := by
    simp [lookupA]
  refine ⟨⟨hE1, hV1, hpres, ?_⟩, ⟨hE2, henv, ?_⟩, ⟨hsplit, ?_⟩, ?_⟩
  · exact ((yaml_merge_policies.1 none "k" "plain" ⟨[("k", Value.str "old")], []⟩
      hE1 hV1).1) hpres
  · exact (yaml_merge_policies.2.1 none "k" "ENV.X" "7"
      ⟨[("k", Value.str "old")], [("X", "7")]⟩ hE2 (by decide) henv).2
  · exact (yaml_merge_policies.2.2.1 sampleFetcher "k" "VAULT.p.q" "p" "q"
      ⟨[("k", Value.str "old")], []⟩ hE3 hV3 hsplit (by decide) hpres).2.2
  · exact (yaml_merge_policies.2.2.2 [] sampleFetcher "k" "VAULT.p.q" "p" "q"
      [("k", Value.str "old")] hE3 hV3 hsplit).2

/-- **C5** (code bug). Python's `yaml_value.strip("ENV.")` strips the
CHARACTER SET `{E, N, V, .}` from both ends, not the prefix `"ENV."`: for
the YAML value `"ENV.NAME"` the variable looked up is `"AM"`, not `"NAME"`.
With `NAME` set to `"correct"` and `AM` set to `"wrong"`, resolution stores
`"wrong"` — the environment variable named by the placeholder is never
consulted. -/
theorem env_strip_charset_bug :
    pyStrip envChars "ENV.NAME" = "AM" ∧ ("AM" : String) ≠ "NAME" ∧
    (Config.loadYamlData none [("k", .str "ENV.NAME")] ""
        ⟨[], [("NAME", "correct"), ("AM", "wrong")]⟩).err = none ∧
    lookupA (Config.loadYamlData none [("k", .str "ENV.NAME")] ""
        ⟨[], [("NAME", "correct"), ("AM", "wrong")]⟩).state.store "k" =
      some (.str "wrong") := by
  refine ⟨by decide, by decide, ?_, ?_⟩ <;>
    simp [Config.loadYamlData, Config.scalarStep, Config.loadEnvVariable,
      Config.load_from_env, setItemC, setAssoc, lookupA, strStartsWith,
      pyStrip, envChars, truthy, pyStr]

/-- **C6, counterexample.** A malformed `VAULT.` reference with three
components fails with the interpreter's tuple-unpacking `ValueError`, whose
message (`"too many values to unpack (expected 2)"`) does NOT contain the
offending value, contrary to the claim that the error is surfaced with it. -/
theorem vault_unpack_message_cex :
    (Config.loadVaultSecret (some sampleFetcher) "VAULT.a.b.c" "k" ⟨[], []⟩).err =
      some (.valueError "too many values to unpack (expected 2)") ∧
    strContains "too many values to unpack (expected 2)" "VAULT.a.b.c" = false := by
  exact ⟨by decide, by decide⟩

/-- **C6, amended.** `_load_vault_secret` splits the (character-set-)stripped
remainder on dots: exactly two components are passed to `load_from_vault`
as (secret path, secret key); any other arity raises a `ValueError` whose
message is the interpreter's fixed unpacking text — it does not carry the
offending value. -/
theorem vault_split_arity (f : Fetcher) (s yk p q : String) (st : ConfigState) :
    (splitDot (pyStrip vaultChars s) = [p, q] →
      Config.loadVaultSecret (some f) s yk st =
        Config.load_from_vault (some f) p q (some yk) st) ∧
    (∀ parts, splitDot (pyStrip vaultChars s) = parts → parts.length ≠ 2 →
      Config.loadVaultSecret (some f) s yk st =
        ⟨st, some (.valueError (unpackMsg parts.length))⟩ ∧
      (unpackMsg parts.length = "not enough values to unpack (expected 2, got 1)" ∨
        unpackMsg parts.length = "too many values to unpack (expected 2)")) := by
  constructor
  · intro hsplit
    simp [Config.loadVaultSecret, hsplit]
  · intro parts hparts hlen
    have hne := splitDot_ne_nil (pyStrip vaultChars s)
    rw [hparts] at hne
    have hres : Config.loadVaultSecret (some f) s yk st =
        ⟨st, some (.valueError (unpackMsg parts.length))⟩ := by
      unfold Config.loadVaultSecret
      rw [hparts]
      cases parts with
      | nil => exact absurd rfl hne
      | cons a t =>
          cases t with
          | nil => rfl
          | cons b t2 =>
              cases t2 with
              | nil => simp at hlen
              | cons c t3 => rfl
    refine ⟨hres, ?_⟩
    cases parts with
    | nil => exact absurd rfl hne
    | cons a t =>
        cases t with
        | nil =>
            left
            have hl1 : ([a] : List String).length = 1 := by simp
            rw [hl1]
            decide
        | cons b t2 =>
            cases t2 with
            | nil => simp at hlen
            | cons c t3 =>
                right
                have h3 : ¬ (a :: b :: c :: t3).length < 2 := by
                  simp only [List.length_cons]
                  omega
                rw [unpackMsg, if_neg h3]

theorem vault_split_arity_witness :
    (splitDot (pyStrip vaultChars "VAULT.p.q") = ["p", "q"] ∧
      Config.loadVaultSecret (some sampleFetcher) "VAULT.p.q" "k" ⟨[], []⟩ =
        Config.load_from_vault (some sampleFetcher) "p" "q" (some "k") ⟨[], []⟩) ∧
    (splitDot (pyStrip vaultChars "VAULT.a.b.c") = ["a", "b", "c"] ∧
      Config.loadVaultSecret (some sampleFetcher) "VAULT.a.b.c" "k" ⟨[], []⟩ =
        ⟨⟨[], []⟩, some (.valueError (unpackMsg (["a", "b", "c"] : List String).length))⟩) := by
  have h1 : splitDot (pyStrip vaultChars "VAULT.p.q") = ["p", "q"] := by decide
  have h2 : splitDot (pyStrip vaultChars "VAULT.a.b.c") = ["a", "b", "c"] := by decide
  refine ⟨⟨h1, ?_⟩, ⟨h2, ?_⟩⟩
  · exact (vault_split_arity sampleFetcher "VAULT.p.q" "k" "p" "q" ⟨[], []⟩).1 h1
  · exact ((vault_split_arity sampleFetcher "VAULT.a.b.c" "k" "p" "q" ⟨[], []⟩).2
      ["a", "b", "c"] h2 (by decide)).1

/-- **C7** (confirmed). `load_prefixed_env_vars` never changes a key already
present in the store; `load_from_env` writes the environment value over the
key unconditionally; a successful `load_many_keys_from_env` leaves every
requested key holding its environment value, regardless of what the store
held before. -/
theorem precedence_per_operation (st : ConfigState) :
    (∀ prefixes st1 j v, Config.load_prefixed_env_vars prefixes st = ⟨st1, none⟩ →
      lookupA st.store j = some v → lookupA st1.store j = some v) ∧
    (∀ key v, lookupA st.env key = some v →
      (Config.load_from_env key none st).err = none ∧
      lookupA (Config.load_from_env key none st).state.store key =
        some (Value.str v)) ∧
    (∀ keys st1, Config.load_many_keys_from_env keys st = ⟨st1, none⟩ →
      ∀ kk, kk ∈ keys →
        lookupA st1.store kk = (lookupA st.env kk).map (fun v => Value.str v)) := by
  refine ⟨?_, ?_, ?_⟩
  · intro prefixes st1 j v h hj
    unfold Config.load_prefixed_env_vars at h
    split at h
    · simp at h
    · simp at h
    · simp only [PResult.mk.injEq] at h
      rw [← h.1]
      exact loadPrefixedKeys_preserves _ _ st j v hj
  · intro key v hv
    have hres : Config.load_from_env key none st = ⟨setItemC st key (.str v), none⟩ := by
      simp [Config.load_from_env, hv, truthy]
    rw [hres]
    exact ⟨rfl, by simp [setItemC, lookupA_setAssoc_self]⟩
  · intro keys st1 h kk hkk
    exact (load_many_success keys st st1 h).2.1 kk hkk

theorem precedence_per_operation_witness :
    (Config.load_prefixed_env_vars (some ["P"]) ⟨[("K", Value.str "old")], [("K", "new")]⟩ =
      ⟨⟨[("K", Value.str "old")], [("K", "new")]⟩, none⟩ ∧
      lookupA ([("K", Value.str "old")] : List (String × Value)) "K" =
        some (Value.str "old")) ∧
    (lookupA ([("K", "new")] : List (String × String)) "K" = some "new" ∧
      lookupA (Config.load_from_env "K" none
          ⟨[("K", Value.str "old")], [("K", "new")]⟩).state.store "K" =
        some (Value.str "new")) ∧
    (Config.load_many_keys_from_env ["K"] ⟨[("K", Value.str "old")], [("K", "new")]⟩ =
      ⟨⟨[("K", Value.str "new")], [("K", "new")]⟩, none⟩ ∧
      lookupA ([("K", Value.str "new")] : List (String × Value)) "K" =
        (lookupA ([("K", "new")] : List (String × String)) "K").map
          (fun v => Value.str v)) := by
  have hpref : Config.load_prefixed_env_vars (some ["P"])
      ⟨[("K", Value.str "old")], [("K", "new")]⟩ =
      ⟨⟨[("K", Value.str "old")], [("K", "new")]⟩, none⟩ := by
    simp [Config.load_prefixed_env_vars, Config.loadPrefixedKeys,
      Config.loadPrefixedKey, strStartsWith, lookupA]
  have henv : lookupA ([("K", "new")] : List (String × String)) "K" = some "new" := by
    decide
  have hmany : Config.load_many_keys_from_env ["K"]
      ⟨[("K", Value.str "old")], [("K", "new")]⟩ =
      ⟨⟨[("K", Value.str "new")], [("K", "new")]⟩, none⟩ := by
    simp [Config.load_many_keys_from_env, lookupA, setItemC, setAssoc, pyStr]
  refine ⟨⟨hpref, rfl⟩, ⟨henv, ?_⟩, ⟨hmany, ?_⟩⟩
  · exact ((precedence_per_operation ⟨[("K", Value.str "old")], [("K", "new")]⟩).2.1
      "K" "new" henv).2
  · exact (precedence_per_operation ⟨[("K", Value.str "old")], [("K", "new")]⟩).2.2
      ["K"] ⟨[("K", Value.str "new")], [("K", "new")]⟩ hmany "K"
      (List.mem_singleton.mpr rfl)

/-- **C8, counterexample.** When the given custom key name equals the vault
secret key and is already present in the store, `load_from_vault` still ends
up writing the fetched secret under that (present) custom name: with
`k ↦ "old"` in the store, `load_from_vault(p, k, custom_key_name=k)` leaves
the store mapping `k` to the secret — the "only if not already present"
guard does not hold for the name actually written. -/
theorem vault_custom_key_collision_cex :
    lookupA ([("k", Value.str "old")] : List (String × Value)) "k" =
      some (.str "old") ∧
    (Config.load_from_vault (some sampleFetcher) "p" "k" (some "k")
        ⟨[("k", .str "old")], []⟩).state.store = [("k", .str "p/k")] ∧
    Value.str "p/k" ≠ Value.str "old" := by
  refine ⟨rfl, ?_, by simp⟩
  simp [Config.load_from_vault, setItemC, setAssoc, lookupA, pyStr,
    sampleFetcher, truthy]

/-- **C8, amended.** Write target of `load_from_vault`: the secret goes under
the custom name exactly when one was given, is nonempty, and is absent from
the store; when no custom name is given, or the given name is empty or
already present (in particular when it coincides with the secret key), the
secret is written under the vault secret key, overwriting whatever is
there. The call itself always returns normally. -/
theorem load_from_vault_write_targets (f : Fetcher) (p q : String)
    (c : Option String) (st : ConfigState) :
    (Config.load_from_vault (some f) p q c st).err = none ∧
    (∀ cc, c = some cc → cc ≠ "" → lookupA st.store cc = none →
      lookupA (Config.load_from_vault (some f) p q c st).state.store cc =
        some (f p q) ∧
      ∀ j, j ≠ cc →
        lookupA (Config.load_from_vault (some f) p q c st).state.store j =
          lookupA st.store j) ∧
    (c = none →
      lookupA (Config.load_from_vault (some f) p q c st).state.store q =
        some (f p q) ∧
      ∀ j, j ≠ q →
        lookupA (Config.load_from_vault (some f) p q c st).state.store j =
          lookupA st.store j) ∧
    (∀ cc, c = some cc → (cc = "" ∨ (lookupA st.store cc).isSome) →
      lookupA (Config.load_from_vault (some f) p q c st).state.store q =
        some (f p q) ∧
      ∀ j, j ≠ q →
        lookupA (Config.load_from_vault (some f) p q c st).state.store j =
          lookupA st.store j) := by
  refine ⟨?_, ?_, ?_, ?_⟩
  · simp only [Config.load_from_vault]
    cases c with
    | none => rfl
    | some cc =>
        split
        all_goals first
          | rfl
          | (split <;> rfl)
  · intro cc hc hcc habs
    subst hc
    have hres : Config.load_from_vault (some f) p q (some cc) st =
        ⟨setItemC st cc (f p q), none⟩ := by
      simp [Config.load_from_vault, hcc, habs]
    rw [hres]
    exact ⟨by simp [setItemC, lookupA_setAssoc_self],
      fun j hj => by simp only [setItemC]; exact lookupA_setAssoc_ne _ _ hj⟩
  · intro hc
    subst hc
    have hres : Config.load_from_vault (some f) p q none st =
        ⟨setItemC st q (f p q), none⟩ := rfl
    rw [hres]
    exact ⟨by simp [setItemC, lookupA_setAssoc_self],
      fun j hj => by simp only [setItemC]; exact lookupA_setAssoc_ne _ _ hj⟩
  · intro cc hc hor
    subst hc
    have hres : Config.load_from_vault (some f) p q (some cc) st =
        ⟨setItemC st q (f p q), none⟩ := by
      rcases hor with hor | hor
      · simp [Config.load_from_vault, hor]
      · obtain ⟨w, hw⟩ := Option.isSome_iff_exists.mp hor
        simp [Config.load_from_vault, hw]
    rw [hres]
    exact ⟨by simp [setItemC, lookupA_setAssoc_self],
      fun j hj => by simp only [setItemC]; exact lookupA_setAssoc_ne _ _ hj⟩

theorem load_from_vault_write_targets_witness :
    ((Config.load_from_vault (some sampleFetcher) "p" "q" (some "c") ⟨[], []⟩).err =
      none ∧
      lookupA (Config.load_from_vault (some sampleFetcher) "p" "q" (some "c")
        ⟨[], []⟩).state.store "c" = some (sampleFetcher "p" "q")) ∧
    ((Config.load_from_vault (some sampleFetcher) "p" "q" none
        ⟨[("q", Value.str "old")], []⟩).err = none ∧
      lookupA (Config.load_from_vault (some sampleFetcher) "p" "q" none
        ⟨[("q", Value.str "old")], []⟩).state.store "q" =
        some (sampleFetcher "p" "q")) ∧
    lookupA (Config.load_from_vault (some sampleFetcher) "p" "q" (some "k")
        ⟨[("k", Value.str "old")], []⟩).state.store "q" =
      some (sampleFetcher "p" "q") := by
  refine ⟨⟨?_, ?_⟩, ⟨?_, ?_⟩, ?_⟩
  · exact (load_from_vault_write_targets sampleFetcher "p" "q" (some "c") ⟨[], []⟩).1
  · exact ((load_from_vault_write_targets sampleFetcher "p" "q" (some "c")
      ⟨[], []⟩).2.1 "c" rfl (by decide) rfl).1
  · exact (load_from_vault_write_targets sampleFetcher "p" "q" none
      ⟨[("q", Value.str "old")], []⟩).1
  · exact ((load_from_vault_write_targets sampleFetcher "p" "q" none
      ⟨[("q", Value.str "old")], []⟩).2.2.1 rfl).1
  · exact ((load_from_vault_write_targets sampleFetcher "p" "q" (some "k")
      ⟨[("k", Value.str "old")], []⟩).2.2.2 "k" rfl
      (Or.inr (by simp [lookupA]))).1

/-- **C9** (confirmed). When the external open/parse collaborator fails with
a file-not-found, malformed-document (`ValueError`) or YAML parse error,
`load_from_yaml_file` re-raises an error of the SAME class whose message
contains the failing file path, leaving the store untouched; the three
classes therefore stay distinguishable for callers. -/
theorem yaml_error_wrapping (f : Option Fetcher) (filepath : String)
    (st : ConfigState) (e : PyErr)
    (hcaught : e.kind = .fileNotFound ∨ e.kind = .valueErr ∨ e.kind = .yamlErr) :
    (Config.load_from_yaml_file f filepath (.error e) st).state = st ∧
    ∃ e2, (Config.load_from_yaml_file f filepath (.error e) st).err = some e2 ∧
      e2.kind = e.kind ∧ strContains e2.message filepath = true := by
  cases e with
  | fileNotFoundError m =>
      refine ⟨rfl, ⟨.fileNotFoundError
        ("Error loading data from file: '" ++ filepath ++ "'"), rfl, rfl, ?_⟩⟩
      exact strContains_of_middle "Error loading data from file: '" filepath "'"
  | valueError m =>
      refine ⟨rfl, ⟨.valueError
        ("Error loading data from file: '" ++ filepath ++ "'"), rfl, rfl, ?_⟩⟩
      exact strContains_of_middle "Error loading data from file: '" filepath "'"
  | yamlError m =>
      refine ⟨rfl, ⟨.yamlError
        ("Error loading data from file: '" ++ filepath ++ "'"), rfl, rfl, ?_⟩⟩
      exact strContains_of_middle "Error loading data from file: '" filepath "'"
  | keyError m => simp [PyErr.kind] at hcaught
  | typeError m => simp [PyErr.kind] at hcaught
  | attributeError m => simp [PyErr.kind] at hcaught

theorem yaml_error_wrapping_witness :
    (PyErr.valueError "boom").kind = .valueErr ∧
    ((Config.load_from_yaml_file none "cfg.yaml"
        (.error (.valueError "boom")) ⟨[], []⟩).state = (⟨[], []⟩ : ConfigState) ∧
      ∃ e2, (Config.load_from_yaml_file none "cfg.yaml"
          (.error (.valueError "boom")) ⟨[], []⟩).err = some e2 ∧
        e2.kind = (PyErr.valueError "boom").kind ∧
        strContains e2.message "cfg.yaml" = true) := by
  exact ⟨rfl, yaml_error_wrapping none "cfg.yaml" ⟨[], []⟩ (.valueError "boom")
    (Or.inr (Or.inl rfl))⟩

/-- **C10** (confirmed). In `YamlLoader._load_yaml_data` the recursive call
for a nested mapping passes only `(value, nested_key)`, dropping the vault
fetcher: a well-formed `VAULT.` placeholder inside a nested mapping fails
with the missing-fetcher `AttributeError` even though a fetcher was
supplied to the walk, while the same placeholder at the top level is
resolved through the supplied fetcher. -/
theorem yaml_fetcher_not_forwarded (env : List (String × String)) (f : Fetcher)
    (k k2 s p q : String) (data : List (String × Value))
    (hE : strStartsWith s "ENV." = false)
    (hV : strStartsWith s "VAULT." = true)
    (hsplit : splitDot (pyStrip vaultChars s) = [p, q]) :
    (YamlLoader.load_yaml_data env [(k, .vmap [(k2, .str s)])] "" (some f) data).2 =
      some (.attributeError "Needs a vault fetcher object.") ∧
    YamlLoader.load_yaml_data env [(k, .str s)] "" (some f) data =
      (setAssoc data k (f p q), none) := by
  constructor
  · simp [YamlLoader.load_yaml_data, hE, hV, hsplit]
  · simp [YamlLoader.load_yaml_data, hE, hV, hsplit]

theorem yaml_fetcher_not_forwarded_witness :
    strStartsWith "VAULT.p.q" "ENV." = false ∧
    strStartsWith "VAULT.p.q" "VAULT." = true ∧
    splitDot (pyStrip vaultChars "VAULT.p.q") = ["p", "q"] ∧
    ((YamlLoader.load_yaml_data [] [("k", .vmap [("k2", .str "VAULT.p.q")])] ""
        (some sampleFetcher) []).2 =
      some (.attributeError "Needs a vault fetcher object.") ∧
    YamlLoader.load_yaml_data [] [("k", .str "VAULT.p.q")] ""
        (some sampleFetcher) [] =
      (setAssoc [] "k" (sampleFetcher "p" "q"), none)) := by
  have h1 : strStartsWith "VAULT.p.q" "ENV." = false := by decide
  have h2 : strStartsWith "VAULT.p.q" "VAULT." = true := by decide
  have h3 : splitDot (pyStrip vaultChars "VAULT.p.q") = ["p", "q"] := by decide
  exact ⟨h1, h2, h3, yaml_fetcher_not_forwarded [] sampleFetcher "k" "k2"
    "VAULT.p.q" "p" "q" [] h1 h2 h3⟩

end ConfigStash
